import Mathlib

/-!
Shallow embedding of the CSP Evaluation Engine of
`src/backend/src/services/csp-evaluator.service.ts`.

Strings are modelled by Lean `String` (lists of characters); JavaScript
`Record<string, string>` objects are modelled by association lists
`List (String × String)` in insertion order, with assignment replacing the
value in place (JavaScript objects keep the first-insertion position of a
key).  JavaScript truthiness of a string (`''` and `undefined` are falsy)
is made explicit: wherever the service only ever uses a possibly-missing
header or directive value through truthiness, `.includes` guarded by `|| ''`
or optional chaining, a missing key and an empty value behave identically,
so lookups collapse `undefined` to `""` (`jsGet`) or drop empty values
(`truthyHeader`).
-/

/-- Whitespace characters recognised by JavaScript `trim` and `\s` for the
ASCII inputs this service handles. -/
def isJsSpace (c : Char) : Bool :=
  c = ' ' || c = '\t' || c = '\n' || c = '\r' || c = '\x0b' || c = '\x0c'

/-- JavaScript `String.prototype.trim`. -/
def jsTrim (s : String) : String :=
  String.mk ((s.data.dropWhile isJsSpace).reverse.dropWhile isJsSpace |>.reverse)

/-- JavaScript `String.prototype.toLowerCase` (ASCII). -/
def lowerStr (s : String) : String :=
  String.mk (s.data.map Char.toLower)

/-- Splits a character list at every occurrence of `sep` (the separators
are not kept; empty pieces are kept), as JavaScript `split` does. -/
def splitCharList (sep : Char) : List Char → List (List Char)
  | [] => [[]]
  | c :: rest =>
    match splitCharList sep rest with
    | [] => [[]]
    | h :: t => if c = sep then [] :: h :: t else (c :: h) :: t

/-- JavaScript `policy.split(';')`. -/
def splitOnSemicolons (s : String) : List String :=
  (splitCharList ';' s.data).map String.mk

/-- Decides whether the first list is a prefix of the second. -/
def isPrefixList : List Char → List Char → Bool
  | [], _ => true
  | _ :: _, [] => false
  | a :: as, b :: bs => a = b && isPrefixList as bs

/-- Decides whether `pat` occurs as a contiguous sublist of the second list. -/
def hasSub (pat : List Char) : List Char → Bool
  | [] => pat.isEmpty
  | c :: rest => isPrefixList pat (c :: rest) || hasSub pat rest

/-- JavaScript `s.includes(pat)` (and the substring-only regexes of the
service, whose `test` is substring search). -/
def containsSub (s pat : String) : Bool :=
  hasSub pat.data s.data

/-- Auxiliary for `splitTokens`: accumulates the current (reversed) run of
non-whitespace characters. -/
def tokensAux : List Char → List Char → List String
  | [], cur => if cur.isEmpty then [] else [String.mk cur.reverse]
  | c :: rest, cur =>
    if isJsSpace c then
      if cur.isEmpty then tokensAux rest [] else String.mk cur.reverse :: tokensAux rest []
    else
      tokensAux rest (c :: cur)

/-- JavaScript `value.split(/\s+/).filter(Boolean)`: the maximal
non-whitespace runs of the string. -/
def splitTokens (s : String) : List String :=
  tokensAux s.data []

/-- JavaScript object assignment `m[k] = v`: replaces the value in place if
the key exists (keeping its original position), otherwise appends. -/
def insertJs (m : List (String × String)) (k v : String) : List (String × String) :=
  match m with
  | [] => [(k, v)]
  | (k', v') :: rest => if k' = k then (k, v) :: rest else (k', v') :: insertJs rest k v

/-- JavaScript read `m[k]`, collapsing `undefined` to `""` (the service only
uses directive-map entries through truthiness or after `|| ''`). -/
def jsGet (m : List (String × String)) (k : String) : String :=
  match m.lookup k with
  | some v => v
  | none => ""

/-- Truthiness of `m[k]` : JavaScript `if (rawDirectives[k])`. -/
def present (m : List (String × String)) (k : String) : Bool :=
  jsGet m k ≠ ""

/-- JavaScript `a || b` on strings. -/
def truthyOr (a b : String) : String :=
  if a = "" then b else a

/-- Loop body of `CSPEvaluator.parsePolicy`: split a segment at the first
space (`part.indexOf(' ')`) into a lower-cased directive name and a trimmed
value; a segment with no space maps to the empty value; assignment
overwrites an earlier occurrence of the same name. -/
def parseSegment (m : List (String × String)) (part : String) : List (String × String) :=
  match part.data.findIdx? (· = ' ') with
  | none => insertJs m (lowerStr part) ""
  | some i =>
      insertJs m (lowerStr (String.mk (part.data.take i)))
        (jsTrim (String.mk (part.data.drop (i + 1))))

/-- `CSPEvaluator.parsePolicy`: split on `;`, trim each segment, drop
empty segments, then process each segment with `parseSegment`. -/
def parsePolicy (policy : String) : List (String × String) :=
  let parts := ((splitOnSemicolons policy).map jsTrim).filter (· ≠ "")
  parts.foldl parseSegment []

/-- One row of the `INSECURE_SOURCES` table: the regex (all of them are
substring tests, `/https?:/` testing for either `http:` or `https:`), its
display name and risk text. -/
structure InsecureSource where
  test : String → Bool
  name : String
  risk : String

/-- The `INSECURE_SOURCES` table. -/
def insecureSources : List InsecureSource :=
  [ ⟨fun s => containsSub s "'unsafe-inline'", "'unsafe-inline'",
      "Allows inline scripts/styles - XSS risk"⟩,
    ⟨fun s => containsSub s "'unsafe-eval'", "'unsafe-eval'",
      "Allows eval() and similar - XSS risk"⟩,
    ⟨fun s => containsSub s "'wasm-unsafe-eval'", "'wasm-unsafe-eval'",
      "Allows WebAssembly compilation"⟩,
    ⟨fun s => containsSub s "data:", "data:",
      "Allows data: URLs - XSS risk in some contexts"⟩,
    ⟨fun s => containsSub s "blob:", "blob:",
      "Allows blob: URLs - potential security concern"⟩,
    ⟨fun s => containsSub s "javascript:", "javascript:",
      "JavaScript protocol handlers - XSS risk"⟩,
    ⟨fun s => containsSub s "*", "'*' (wildcard)",
      "Allows any source - completely bypasses CSP"⟩,
    ⟨fun s => containsSub s "http:" || containsSub s "https:", "http: (without TLS)",
      "Allows unencrypted HTTP connections"⟩ ]

/-- Category lookup in the static `CSP_DIRECTIVES` table (the service reads
only the `category` field of that table; all other metadata is dead for the
evaluation paths). -/
def cspDirectiveCategory (name : String) : String :=
  if name = "default-src" ∨ name = "script-src" ∨ name = "style-src" ∨
     name = "img-src" ∨ name = "connect-src" ∨ name = "font-src" ∨
     name = "object-src" ∨ name = "media-src" ∨ name = "frame-src" ∨
     name = "worker-src" ∨ name = "manifest-src" then "fetch"
  else if name = "base-uri" ∨ name = "sandbox" then "document"
  else if name = "form-action" ∨ name = "frame-ancestors" then "navigation"
  else if name = "report-uri" ∨ name = "report-to" then "reporting"
  else if name = "upgrade-insecure-requests" ∨ name = "block-all-mixed-content" then "other"
  else "other"

/-- `CSPDirectiveEvaluation` record. -/
structure CSPDirectiveEvaluation where
  name : String
  value : String
  sources : List String
  isSecure : Bool
  warnings : List String
  category : String
deriving DecidableEq, Repr

/-- `CSPEvaluator.evaluateDirective`. -/
def evaluateDirective (name value : String) : CSPDirectiveEvaluation :=
  let sources := splitTokens value
  let warnings := sources.flatMap (fun s =>
    (insecureSources.filter (fun i => i.test s)).map
      (fun i => i.name ++ " detected: " ++ i.risk))
  let isSecure := sources.contains "'none'" ||
    (!(sources.any (fun s => insecureSources.any (fun i => i.test s))) &&
     !sources.isEmpty)
  ⟨name, value, sources, isSecure, warnings, cspDirectiveCategory (lowerStr name)⟩

/-- The effective script source of `calculateScore`:
`rawDirectives['script-src'] || rawDirectives['default-src'] || ''`. -/
def effectiveScriptSrc (rawDirectives : List (String × String)) : String :=
  truthyOr (jsGet rawDirectives "script-src")
    (truthyOr (jsGet rawDirectives "default-src") "")

/-- The effectiveness tier derived from a score in `evaluatePolicy`. -/
def effectivenessOf (score : Int) : String :=
  if score ≥ 80 then "strong" else if score ≥ 50 then "moderate" else "weak"

/-- `CSPEvaluator.calculateScore`, mirroring the sequential additions and
deductions of the source (score as `Int`, clamped at the end). -/
def calculateScore (directives : List CSPDirectiveEvaluation)
    (rawDirectives : List (String × String)) : Int :=
  let score : Int := 0
  let score := score + 10
  let recommendedDirectives :=
    ["default-src", "script-src", "style-src", "img-src", "connect-src"]
  let score := recommendedDirectives.foldl
    (fun sc dir => if present rawDirectives dir then sc + 6 else sc) score
  let score := if present rawDirectives "object-src" then score + 10 else score
  let score := if present rawDirectives "base-uri" then score + 10 else score
  let score := if present rawDirectives "frame-ancestors" then score + 10 else score
  let score := directives.foldl (fun sc dir =>
    if dir.isSecure && dir.sources.contains "'none'" then sc + 5
    else if dir.isSecure && !(dir.sources.any (fun s => containsSub s "unsafe")) then sc + 3
    else sc) score
  let scriptSrc := effectiveScriptSrc rawDirectives
  let score := if containsSub scriptSrc "'unsafe-inline'" &&
      !(containsSub scriptSrc "'nonce-") && !(containsSub scriptSrc "'sha256-") then
    score - 20 else score
  let score := if containsSub scriptSrc "'unsafe-eval'" then score - 15 else score
  let score := if containsSub scriptSrc "*" then score - 25 else score
  max 0 (min 100 score)

/-- One row of the `KNOWN_BYPASSES` table. -/
structure KnownBypass where
  name : String
  condition : List (String × String) → Bool
  description : String
  severity : String

/-- The `KNOWN_BYPASSES` table (all five predicates, in table order). -/
def knownBypasses : List KnownBypass :=
  [ ⟨"JSONP Bypass",
      fun d =>
        let scriptSrc := truthyOr (jsGet d "script-src") (truthyOr (jsGet d "default-src") "")
        containsSub scriptSrc "googleapis.com" ||
        containsSub scriptSrc "ajax.googleapis.com" ||
        containsSub scriptSrc "gstatic.com",
      "Whitelisted Google domains can be used for JSONP-based CSP bypass",
      "medium"⟩,
    ⟨"Angular Template Injection",
      fun d =>
        let scriptSrc := truthyOr (jsGet d "script-src") ""
        containsSub scriptSrc "cdnjs.cloudflare.com" || containsSub scriptSrc "unpkg.com",
      "CDNs may host vulnerable Angular versions that enable CSP bypass",
      "medium"⟩,
    ⟨"object-src Missing",
      fun d =>
        let objectSrc := jsGet d "object-src"
        let defaultSrc := truthyOr (jsGet d "default-src") ""
        objectSrc = "" && (defaultSrc = "" || containsSub defaultSrc "'none'"),
      "Missing object-src allows plugin execution via data: or other sources",
      "high"⟩,
    ⟨"base-uri Missing",
      fun d => jsGet d "base-uri" = "",
      "Missing base-uri allows attackers to change base URL, potentially hijacking relative URLs",
      "medium"⟩,
    ⟨"strict-dynamic with unsafe-inline",
      fun d =>
        let scriptSrc := truthyOr (jsGet d "script-src") ""
        containsSub scriptSrc "'strict-dynamic'" && containsSub scriptSrc "'unsafe-inline'",
      "'strict-dynamic' ignores 'unsafe-inline' in modern browsers, but fallback may allow inline scripts",
      "low"⟩ ]

/-- `CSPEvaluator.detectBypasses`. -/
def detectBypasses (rawDirectives : List (String × String)) : List String :=
  (knownBypasses.filter (fun b => b.condition rawDirectives)).map
    (fun b => b.name ++ ": " ++ b.description)

/-- `CSPFrameworkDetection` record. -/
structure CSPFrameworkDetection where
  framework : String
  detected : Bool
  requiredDirectives : List String
deriving DecidableEq, Repr

/-- `CSPEvaluator.detectFrameworks` (optional chaining
`rawDirectives[d]?.includes(x)` is falsy for a missing key, which `jsGet`
collapses to `""`, on which every non-empty substring test is false). -/
def detectFrameworks (rawDirectives : List (String × String)) : List CSPFrameworkDetection :=
  let reactDirectives := ["script-src", "style-src"]
  let hasReact := reactDirectives.all (fun d =>
    containsSub (jsGet rawDirectives d) "'nonce-" ||
    containsSub (jsGet rawDirectives d) "'unsafe-inline'")
  let angularDirectives := ["script-src"]
  let hasAngular := angularDirectives.all (fun d =>
    containsSub (jsGet rawDirectives d) "'self'" ||
    containsSub (jsGet rawDirectives d) "'unsafe-eval'")
  let vueDirectives := ["script-src", "style-src"]
  let hasVue := vueDirectives.all (fun d =>
    containsSub (jsGet rawDirectives d) "'self'" ||
    containsSub (jsGet rawDirectives d) "'unsafe-eval'")
  [ ⟨"React", hasReact, reactDirectives⟩,
    ⟨"Angular", hasAngular, angularDirectives⟩,
    ⟨"Vue.js", hasVue, vueDirectives⟩ ]

/-- `CSPFinding` record (`directive` and `recommendation` are optional). -/
structure CSPFinding where
  type : String
  severity : String
  message : String
  directive : Option String
  recommendation : Option String
deriving DecidableEq, Repr

/-- `CSPPolicyEvaluation` record. -/
structure CSPPolicyEvaluation where
  policy : String
  directives : List CSPDirectiveEvaluation
  findings : List CSPFinding
  score : Int
  effectiveness : String
  missingDirectives : List String
  unsafeSources : List String
  bypasses : List String
deriving DecidableEq, Repr

/-- `CSPEvaluator.evaluatePolicy`. -/
def evaluatePolicy (policy : String) : CSPPolicyEvaluation :=
  let rawDirectives := parsePolicy policy
  let dirResults := rawDirectives.map (fun nv =>
    let ev := evaluateDirective nv.1 nv.2
    let fs := ev.warnings.map (fun w =>
      (⟨"warning", "medium", w, some nv.1, none⟩ : CSPFinding))
    let fs := if ev.isSecure && ev.sources.contains "'none'" then
        fs ++ [⟨"success", "info", nv.1 ++ " is properly restricted", some nv.1, none⟩]
      else fs
    (ev, fs))
  let directives := dirResults.map (·.1)
  let findings := dirResults.flatMap (·.2)
  let criticalDirectives := ["default-src", "script-src", "object-src", "base-uri"]
  let missingDirectives := criticalDirectives.filter (fun d => !(present rawDirectives d))
  let findings := findings ++ missingDirectives.map (fun d =>
    (⟨"warning", if d = "default-src" || d = "script-src" then "high" else "medium",
      "Missing " ++ d ++ " directive", none,
      some ("Add " ++ d ++ " directive to improve security")⟩ : CSPFinding))
  let bypasses := detectBypasses rawDirectives
  let findings := findings ++ bypasses.map (fun b =>
    (⟨"warning", "medium", b, none, none⟩ : CSPFinding))
  let unsafeSources := directives.foldl (fun acc dir =>
    dir.sources.foldl (fun acc s =>
      insecureSources.foldl (fun acc i =>
        if i.test s && !acc.contains i.name then acc ++ [i.name] else acc) acc) acc) []
  let score := calculateScore directives rawDirectives
  let effectiveness := effectivenessOf score
  ⟨policy, directives, findings, score, effectiveness, missingDirectives, unsafeSources, bypasses⟩

/-- Index of the first `;` in the list (list length when absent). -/
def firstSemiIdx : List Char → Nat
  | [] => 0
  | c :: rest => if c = ';' then 0 else firstSemiIdx rest + 1

/-- Length of the maximal whitespace run at the head of the list. -/
def wsRunLen : List Char → Nat
  | [] => 0
  | c :: rest => if isJsSpace c then wsRunLen rest + 1 else 0

/-- Anchored match of the regex `dir\s+([^;]+)` at the head of `s`,
returning the capture group.  Greedy matching with backtracking: `\s+`
takes the longest whitespace run that still leaves at least one non-`;`
character for `[^;]+` (whitespace characters other than `;` may be
reclaimed by `[^;]+`), and `[^;]+` then extends to the first `;` or the
end of the string. -/
def captureAt (dir : List Char) (s : List Char) : Option (List Char) :=
  if isPrefixList dir s then
    let rest := s.drop dir.length
    let w := wsRunLen rest
    let t := firstSemiIdx rest
    if 1 ≤ w ∧ 2 ≤ t then
      some ((rest.drop (min w (t - 1))).take (t - min w (t - 1)))
    else none
  else none

/-- Leftmost match of the regex `dir\s+([^;]+)` anywhere in `s`
(JavaScript `s.match(re)` without the global flag), returning the first
capture group. -/
def scanMatch (dir : List Char) : List Char → Option (List Char)
  | [] => none
  | c :: rest =>
    match captureAt dir (c :: rest) with
    | some cap => some cap
    | none => scanMatch dir rest

/-- `cspReportOnly.match(/<dir>\s+([^;]+)/)?.[1]` as an `Option`. -/
def extractMatch (dir s : String) : Option String :=
  (scanMatch dir.data s.data).map String.mk

/-- `CSPReportOnlyEvaluation` record. -/
structure CSPReportOnlyEvaluation where
  reportOnly : Bool
  reportUri : Option String
  reportTo : Option String
deriving DecidableEq, Repr

/-- `CSPEvaluation` record; the two optional fields model the
`headers['content-security-policy']` and
`headers['content-security-policy-report-only']` entries. -/
structure CSPEvaluation where
  cspPolicy : Option CSPPolicyEvaluation
  cspReportOnlyEval : Option CSPReportOnlyEvaluation
  overallScore : Int
  overallEffectiveness : String
  recommendations : List String
  bypassTechniques : List String
  frameworkCompatibility : List CSPFrameworkDetection
deriving DecidableEq, Repr

/-- Case-insensitive header lookup: the first entry whose lower-cased key
matches (`headerEntries.find(([k]) => k.toLowerCase() === key)`). -/
def findHeader (headers : List (String × String)) (key : String) : Option String :=
  (headers.find? (fun kv => lowerStr kv.1 = key)).map (·.2)

/-- JavaScript truthiness of a possibly-missing header value: a present
header with the empty value behaves like an absent one in every use
(`if (cspHeader)`, `!cspHeader`). -/
def truthyHeader (o : Option String) : Option String :=
  match o with
  | some v => if v = "" then none else some v
  | none => none

/-- `CSPEvaluator.generateRecommendations`, as a pure update of the result
record (the source mutates `result` in place). -/
def generateRecommendations (result : CSPEvaluation)
    (cspHeader cspReportOnly : Option String) : CSPEvaluation :=
  if cspHeader.isNone && cspReportOnly.isNone then
    { result with
      recommendations := result.recommendations ++
        ["Implement a Content-Security-Policy header to prevent XSS attacks",
         "Start with report-only mode: Content-Security-Policy-Report-Only"],
      overallEffectiveness := "none" }
  else
    match cspHeader, result.cspPolicy with
    | some _, some ev =>
      let recs := result.recommendations
      let recs := if ev.score < 50 then
          recs ++ ["CSP policy is weak - avoid using unsafe-inline and wildcards"] else recs
      let recs := if ev.missingDirectives.contains "default-src" then
          recs ++ ["Add default-src directive as a fallback for unspecified resource types"] else recs
      let recs := if ev.missingDirectives.contains "script-src" then
          recs ++ ["Add script-src directive to control JavaScript execution"] else recs
      let recs := if ev.missingDirectives.contains "object-src" then
          recs ++ ["Add object-src 'none' to prevent plugin-based attacks"] else recs
      let recs := if ev.missingDirectives.contains "base-uri" then
          recs ++ ["Add base-uri directive to prevent base tag hijacking"] else recs
      let recs := if ev.unsafeSources.contains "'unsafe-inline'" &&
          !(containsSub ev.policy "'nonce-") then
          recs ++ ["Replace 'unsafe-inline' with nonce-based or hash-based CSP"] else recs
      let recs := if !(containsSub ev.policy "upgrade-insecure-requests") then
          recs ++ ["Consider adding upgrade-insecure-requests for HTTPS migration"] else recs
      let recs := if !(containsSub ev.policy "frame-ancestors") then
          recs ++ ["Add frame-ancestors directive to prevent clickjacking"] else recs
      let recs := if !(containsSub ev.policy "form-action") then
          recs ++ ["Add form-action directive to restrict form submissions"] else recs
      { result with recommendations := recs }
    | _, _ => result

/-- `CSPEvaluator.evaluate`. -/
def evaluate (headers : List (String × String)) : CSPEvaluation :=
  let cspHeader := truthyHeader (findHeader headers "content-security-policy")
  let cspReportOnly := truthyHeader (findHeader headers "content-security-policy-report-only")
  let result : CSPEvaluation := ⟨none, none, 0, "none", [], [], []⟩
  let result := match cspHeader with
    | some h =>
      let pe := evaluatePolicy h
      { result with
        cspPolicy := some pe,
        overallScore := pe.score,
        overallEffectiveness := pe.effectiveness,
        bypassTechniques := pe.bypasses,
        frameworkCompatibility := detectFrameworks (parsePolicy h) }
    | none => result
  let result := match cspReportOnly with
    | some r =>
      let ro : CSPReportOnlyEvaluation :=
        ⟨true, (extractMatch "report-uri" r).map jsTrim, (extractMatch "report-to" r).map jsTrim⟩
      let result := { result with cspReportOnlyEval := some ro }
      if cspHeader.isNone then
        { result with recommendations :=
            result.recommendations ++ ["Consider enforcing CSP in addition to report-only mode"] }
      else result
    | none => result
  generateRecommendations result cspHeader cspReportOnly

/-!
Specification-side definitions.  Each of the following is written from the
wording of the specification (not from the source) and is compared with
the corresponding source-derived definition by a refinement theorem.
-/

/-- Tokenization as the specification words it: the whitespace-separated
tokens of the value, empty tokens discarded (stated through the library
splitter `List.splitOnP`). -/
def specTokenize (s : String) : List String :=
  ((List.splitOnP isJsSpace s.data).map String.mk).filter (· ≠ "")

/-- Specification wording of one parser segment: split at the first space,
the part before it (lower-cased) is the name, the part after it (trimmed)
is the value; a segment with no space maps its lower-cased text to the
empty value.  Repeated names overwrite. -/
def specSegment (m : List (String × String)) (part : String) : List (String × String) :=
  let nameChars := part.data.takeWhile (· ≠ ' ')
  let restChars := part.data.dropWhile (· ≠ ' ')
  if restChars.isEmpty then insertJs m (lowerStr part) ""
  else insertJs m (lowerStr (String.mk nameChars)) (jsTrim (String.mk restChars.tail))

/-- Specification wording of the parser: split on `;`, trim each segment,
discard empty segments, then fold the segments through `specSegment`. -/
def specParsePolicy (policy : String) : List (String × String) :=
  (((splitOnSemicolons policy).map jsTrim).filter (· ≠ "")).foldl specSegment []

/-- Specification wording of the per-directive bonus of the score: +5 for a
secure directive whose source list contains `'none'`, else +3 for a secure
directive none of whose source tokens contain the substring `unsafe`. -/
def specDirBonus (d : CSPDirectiveEvaluation) : Int :=
  if d.isSecure && d.sources.contains "'none'" then 5
  else if d.isSecure && !(d.sources.any (fun s => containsSub s "unsafe")) then 3
  else 0

/-- Specification wording of the presence bonus: +6 for each of the five
recommended directives present in the raw directive map (presence follows
the evaluator's truthiness convention: a directive present with an empty
value counts as absent). -/
def specPresenceBonus (raw : List (String × String)) : Int :=
  6 * ((["default-src", "script-src", "style-src", "img-src", "connect-src"].filter
    (present raw)).length : Int)

/-- Specification wording of the security-directive bonus: +10 each for
`object-src`, `base-uri`, `frame-ancestors`. -/
def specSecurityBonus (raw : List (String × String)) : Int :=
  (if present raw "object-src" then 10 else 0) +
  (if present raw "base-uri" then 10 else 0) +
  (if present raw "frame-ancestors" then 10 else 0)

/-- Specification wording of the effective script source: `script-src` if
present, else `default-src`, else the empty string. -/
def specEffScript (raw : List (String × String)) : String :=
  if present raw "script-src" then jsGet raw "script-src"
  else if present raw "default-src" then jsGet raw "default-src"
  else ""

/-- The −20 `unsafe-inline`-without-nonce/sha256 deduction. -/
def specInlineDeduction (raw : List (String × String)) : Int :=
  if containsSub (specEffScript raw) "'unsafe-inline'" &&
     !(containsSub (specEffScript raw) "'nonce-") &&
     !(containsSub (specEffScript raw) "'sha256-") then 20 else 0

/-- The −15 `unsafe-eval` deduction. -/
def specEvalDeduction (raw : List (String × String)) : Int :=
  if containsSub (specEffScript raw) "'unsafe-eval'" then 15 else 0

/-- The −25 wildcard deduction. -/
def specWildcardDeduction (raw : List (String × String)) : Int :=
  if containsSub (specEffScript raw) "*" then 25 else 0

/-- Specification wording of the score: 10, plus the presence, security and
per-directive bonuses, minus the three deductions, clamped to `[0, 100]`. -/
def specScore (directives : List CSPDirectiveEvaluation)
    (raw : List (String × String)) : Int :=
  max 0 (min 100 (10 + specPresenceBonus raw + specSecurityBonus raw +
    (directives.map specDirBonus).sum -
    specInlineDeduction raw - specEvalDeduction raw - specWildcardDeduction raw))

/-!
Helper lemmas relating the source-derived definitions to the
specification-side ones.
-/

theorem foldl_if_add (p : String → Bool) (k : Int) :
    ∀ (l : List String) (s : Int),
      l.foldl (fun sc dir => if p dir then sc + k else sc) s =
        s + k * ((l.filter p).length : Int) := by
  intro l
  induction l with
  | nil => intro s; simp
  | cons a t ih =>
    intro s
    by_cases h : p a = true <;> simp [List.foldl_cons, h, ih] <;> ring

theorem foldl_bonus :
    ∀ (l : List CSPDirectiveEvaluation) (s : Int),
      l.foldl (fun sc dir =>
        if dir.isSecure && dir.sources.contains "'none'" then sc + 5
        else if dir.isSecure && !(dir.sources.any (fun s => containsSub s "unsafe")) then sc + 3
        else sc) s = s + (l.map specDirBonus).sum := by
  intro l
  induction l with
  | nil => intro s; simp
  | cons a t ih =>
    intro s
    have ha : (if a.isSecure && a.sources.contains "'none'" then s + 5
        else if a.isSecure && !(a.sources.any (fun s => containsSub s "unsafe")) then s + 3
        else s) = s + specDirBonus a := by
      unfold specDirBonus
      by_cases h1 : (a.isSecure && a.sources.contains "'none'") = true
      · simp only [if_pos h1]
      · simp only [if_neg h1]
        by_cases h2 : (a.isSecure && !(a.sources.any (fun s => containsSub s "unsafe"))) = true
        · simp only [if_pos h2]
        · simp only [if_neg h2]
          omega
    simp only [List.foldl_cons, ha, ih, List.map_cons, List.sum_cons]
    ring

theorem effScript_eq (raw : List (String × String)) :
    effectiveScriptSrc raw = specEffScript raw := by
  unfold effectiveScriptSrc specEffScript present truthyOr
  by_cases h1 : jsGet raw "script-src" = "" <;>
    by_cases h2 : jsGet raw "default-src" = "" <;> simp [h1, h2]

theorem calculateScore_eq_specScore (directives : List CSPDirectiveEvaluation)
    (raw : List (String × String)) :
    calculateScore directives raw = specScore directives raw := by
  unfold calculateScore specScore
  simp only [foldl_if_add, foldl_bonus, effScript_eq]
  unfold specPresenceBonus specSecurityBonus specInlineDeduction specEvalDeduction
    specWildcardDeduction
  split_ifs <;> omega

theorem mkStr_eq_empty_iff (l : List Char) : (String.mk l = "") ↔ l = [] := by
  rw [String.ext_iff]

theorem tokensAux_eq_go : ∀ (l cur : List Char),
    tokensAux l cur =
      ((List.splitOnP.go isJsSpace l cur).map String.mk).filter (· ≠ "") := by
  intro l
  induction l with
  | nil =>
    intro cur
    by_cases h : cur = []
    · subst h
      simp [tokensAux, List.splitOnP.go, mkStr_eq_empty_iff]
    · simp [tokensAux, List.splitOnP.go, h, mkStr_eq_empty_iff, List.isEmpty_iff]
  | cons c rest ih =>
    intro cur
    by_cases hc : isJsSpace c = true
    · by_cases hcur : cur = []
      · simp [tokensAux, List.splitOnP.go, hc, hcur, ih, mkStr_eq_empty_iff]
      · simp [tokensAux, List.splitOnP.go, hc, hcur, ih, mkStr_eq_empty_iff,
          List.isEmpty_iff]
    · simp [tokensAux, List.splitOnP.go, hc, ih]

theorem splitTokens_eq_specTokenize (s : String) :
    splitTokens s = specTokenize s :=
  tokensAux_eq_go s.data []
theorem findIdx_space_none : ∀ l : List Char,
    l.findIdx? (· = ' ') = none →
      l.dropWhile (· ≠ ' ') = [] := by
  intro l
  induction l with
  | nil => intro _; simp
  | cons a t ih =>
    intro h
    by_cases ha : a = ' '
    · simp [List.findIdx?_cons, ha] at h
    · simp [List.findIdx?_cons, ha, List.findIdx?_succ] at h
      have hdw : List.dropWhile (fun x => decide (x ≠ ' ')) (a :: t) =
          List.dropWhile (fun x => decide (x ≠ ' ')) t := by
        simp [List.dropWhile_cons, ha]
      rw [hdw]
      exact ih (by simpa using h)

theorem findIdx_space_some : ∀ (l : List Char) (i : Nat),
    l.findIdx? (· = ' ') = some i →
      l.take i = l.takeWhile (· ≠ ' ') ∧
      l.drop (i + 1) = (l.dropWhile (· ≠ ' ')).tail ∧
      l.dropWhile (· ≠ ' ') ≠ [] := by
  intro l
  induction l with
  | nil => intro i h; simp [List.findIdx?] at h
  | cons a t ih =>
    intro i h
    by_cases ha : a = ' '
    · simp [List.findIdx?_cons, ha] at h
      subst h
      simp [ha]
    · simp [List.findIdx?_cons, ha, List.findIdx?_succ, Option.map_eq_some'] at h
      obtain ⟨j, hj, hij⟩ := h
      subst hij
      obtain ⟨h1, h2, h3⟩ := ih j hj
      have hdw : List.dropWhile (fun x => decide (x ≠ ' ')) (a :: t) =
          List.dropWhile (fun x => decide (x ≠ ' ')) t := by
        simp [List.dropWhile_cons, ha]
      refine ⟨?_, ?_, ?_⟩
      · simp [List.take_succ_cons, List.takeWhile_cons, ha, h1]
      · rw [hdw, List.drop_succ_cons, h2]
      · rw [hdw]; exact h3

theorem parseSegment_eq_specSegment (m : List (String × String)) (part : String) :
    parseSegment m part = specSegment m part := by
  rw [parseSegment.eq_def]
  split
  · rename_i heq
    have hd := findIdx_space_none part.data heq
    simp only [specSegment]
    rw [hd]
    simp
  · rename_i i heq
    obtain ⟨h1, h2, h3⟩ := findIdx_space_some part.data i heq
    simp only [specSegment]
    rw [if_neg (by simpa [List.isEmpty_iff] using h3), h1, h2]

theorem parsePolicy_eq_specParsePolicy (policy : String) :
    parsePolicy policy = specParsePolicy policy := by
  have hfun : parseSegment = specSegment :=
    funext fun m => funext fun part => parseSegment_eq_specSegment m part
  simp only [parsePolicy, specParsePolicy, hfun]

theorem effectivenessOf_ne_none (score : Int) : effectivenessOf score ≠ "none" := by
  unfold effectivenessOf
  split_ifs <;> decide

theorem evaluatePolicy_eff (p : String) :
    (evaluatePolicy p).effectiveness = effectivenessOf (evaluatePolicy p).score := rfl

theorem evaluatePolicy_eff_ne_none (p : String) :
    (evaluatePolicy p).effectiveness ≠ "none" := by
  rw [evaluatePolicy_eff]
  exact effectivenessOf_ne_none _

theorem evaluate_overallEffectiveness (headers : List (String × String)) :
    (evaluate headers).overallEffectiveness =
      match truthyHeader (findHeader headers "content-security-policy") with
      | some h => (evaluatePolicy h).effectiveness
      | none => "none" := by
  rcases hc : truthyHeader (findHeader headers "content-security-policy") with _ | h <;>
    rcases hr : truthyHeader (findHeader headers "content-security-policy-report-only")
      with _ | r <;>
    simp [evaluate, generateRecommendations, hc, hr]

/-- The wildcard row of the `INSECURE_SOURCES` table. -/
def wildcardSource : InsecureSource :=
  ⟨fun s => containsSub s "*", "'*' (wildcard)",
    "Allows any source - completely bypasses CSP"⟩

theorem wildcardSource_mem : wildcardSource ∈ insecureSources := by
  unfold insecureSources
  exact List.mem_cons_of_mem _ (List.mem_cons_of_mem _ (List.mem_cons_of_mem _
    (List.mem_cons_of_mem _ (List.mem_cons_of_mem _ (List.mem_cons_of_mem _
      (List.mem_cons_self _ _))))))

theorem warning_mem_of_match (name value s : String) (hs : s ∈ splitTokens value)
    (i : InsecureSource) (hi : i ∈ insecureSources) (ht : i.test s = true) :
    (i.name ++ " detected: " ++ i.risk) ∈ (evaluateDirective name value).warnings := by
  show _ ∈ (splitTokens value).flatMap (fun s =>
    (insecureSources.filter (fun i => i.test s)).map
      (fun i => i.name ++ " detected: " ++ i.risk))
  exact List.mem_flatMap.mpr
    ⟨s, hs, List.mem_map.mpr ⟨i, List.mem_filter.mpr ⟨hi, ht⟩, rfl⟩⟩

theorem isSecure_false_of_match (name value s : String) (hs : s ∈ splitTokens value)
    (i : InsecureSource) (hi : i ∈ insecureSources) (ht : i.test s = true)
    (hnone : (splitTokens value).contains "'none'" = false) :
    (evaluateDirective name value).isSecure = false := by
  show ((splitTokens value).contains "'none'" ||
    (!((splitTokens value).any (fun s => insecureSources.any (fun i => i.test s))) &&
     !(splitTokens value).isEmpty)) = false
  have hany : ((splitTokens value).any
      (fun s => insecureSources.any (fun i => i.test s))) = true :=
    List.any_eq_true.mpr ⟨s, hs, List.any_eq_true.mpr ⟨i, hi, ht⟩⟩
  rw [hnone, hany]
  rfl

/-!
Claim theorems.
-/

/-- C1, counterexample: a header map containing only the report-only header
has a CSP-related header present, yet `evaluate` returns
`overallEffectiveness = "none"`, falsifying the claimed "if and only if both
headers are absent". -/
theorem c1_counterexample :
    findHeader [("content-security-policy-report-only", "default-src 'self'")]
      "content-security-policy-report-only" = some "default-src 'self'" ∧
    (evaluate [("content-security-policy-report-only", "default-src 'self'")]
      ).overallEffectiveness = "none" := by
  constructor
  · decide
  · decide

/-- C1, amended: `overallEffectiveness = "none"` holds if and only if the
enforced `content-security-policy` header is absent or has an empty value
(its truthy lookup is `none`); the report-only header has no influence on
the overall effectiveness. -/
theorem c1_amended_none_iff_no_enforced (headers : List (String × String)) :
    (evaluate headers).overallEffectiveness = "none" ↔
      truthyHeader (findHeader headers "content-security-policy") = none := by
  rw [evaluate_overallEffectiveness]
  rcases truthyHeader (findHeader headers "content-security-policy") with _ | h
  · simp
  · simp [evaluatePolicy_eff_ne_none h]

/-- C1, witness: a header map with an enforced policy does not evaluate to
the `"none"` effectiveness. -/
theorem c1_witness :
    ¬ (evaluate [("content-security-policy", "default-src 'self'")]
      ).overallEffectiveness = "none" := fun h =>
  absurd ((c1_amended_none_iff_no_enforced
    [("content-security-policy", "default-src 'self'")]).mp h) (by decide)

/-- C2: `calculateScore` returns exactly the value of the specification's
reference computation (base 10, +6 presence bonuses, +10 security-directive
bonuses, +5/+3 per-directive bonuses, −20/−15/−25 deductions against the
effective script source, clamped to `[0, 100]`). -/
theorem c2_calculate_score_reference (directives : List CSPDirectiveEvaluation)
    (raw : List (String × String)) :
    calculateScore directives raw = specScore directives raw :=
  calculateScore_eq_specScore directives raw

/-- C3: `parsePolicy` equals the specification's description (split on `;`,
trim, drop empties, split each segment at the first space into lower-cased
name and trimmed value, valueless segments map to the empty value, repeats
overwrite), and the empty input yields the empty map. -/
theorem c3_parse_policy_spec :
    (∀ policy, parsePolicy policy = specParsePolicy policy) ∧
    parsePolicy "" = [] :=
  ⟨parsePolicy_eq_specParsePolicy, by decide⟩

/-- C4: `evaluateDirective` tokenizes on whitespace discarding empty tokens,
emits one `"<label> detected: <risk>"` warning per matching (token, pattern)
pair, and is secure exactly when the source list contains `'none'` or is
non-empty with no token matching any insecure pattern; an empty source list
without `'none'` is not secure. -/
theorem c4_evaluate_directive_spec (name value : String) :
    (evaluateDirective name value).sources = specTokenize value ∧
    (evaluateDirective name value).warnings =
      (evaluateDirective name value).sources.flatMap (fun s =>
        (insecureSources.filter (fun i => i.test s)).map
          (fun i => i.name ++ " detected: " ++ i.risk)) ∧
    ((evaluateDirective name value).isSecure = true ↔
      "'none'" ∈ (evaluateDirective name value).sources ∨
        ((evaluateDirective name value).sources ≠ [] ∧
          ∀ s ∈ (evaluateDirective name value).sources, ∀ i ∈ insecureSources,
            i.test s = false)) ∧
    ((evaluateDirective name value).sources = [] →
      (evaluateDirective name value).isSecure = false) := by
  refine ⟨splitTokens_eq_specTokenize value, rfl, ?_, ?_⟩
  · show ((splitTokens value).contains "'none'" ||
      (!((splitTokens value).any (fun s => insecureSources.any (fun i => i.test s))) &&
       !(splitTokens value).isEmpty)) = true ↔
      "'none'" ∈ splitTokens value ∨
        (splitTokens value ≠ [] ∧
          ∀ s ∈ splitTokens value, ∀ i ∈ insecureSources, i.test s = false)
    simp [List.any_eq_true, List.isEmpty_iff]
    tauto
  · intro h
    have h' : splitTokens value = [] := h
    show ((splitTokens value).contains "'none'" ||
      (!((splitTokens value).any (fun s => insecureSources.any (fun i => i.test s))) &&
       !(splitTokens value).isEmpty)) = false
    rw [h']
    rfl

/-- C4, witness: the empty value gives an empty source list, which is not
secure. -/
theorem c4_witness : (evaluateDirective "script-src" "").isSecure = false :=
  (c4_evaluate_directive_spec "script-src" "").2.2.2 (by decide)

/-- C5: `evaluate` on the empty header map returns score 0, effectiveness
`"none"`, exactly the two implement/report-only recommendations in order,
no framework rows and no bypasses (the embedding `evaluate` is a total
function, so no exception path exists for any header map). -/
theorem c5_evaluate_empty :
    evaluate [] = ⟨none, none, 0, "none",
      ["Implement a Content-Security-Policy header to prevent XSS attacks",
       "Start with report-only mode: Content-Security-Policy-Report-Only"],
      [], []⟩ := by
  decide

/-- C6, counterexample: for the directive map
`script-src ↦ 'self' 'strict-dynamic' 'unsafe-inline'`, the bypass list
also contains the `base-uri Missing` entry, triggered by a condition
unrelated to the strict-dynamic/unsafe-inline combination. -/
theorem c6_counterexample :
    "base-uri Missing: Missing base-uri allows attackers to change base URL, potentially hijacking relative URLs" ∈
      detectBypasses [("script-src", "'self' 'strict-dynamic' 'unsafe-inline'")] := by
  decide

/-- C6, amended: that directive map triggers exactly three bypasses, in
table order: `object-src Missing` (object-src absent and default-src
absent), `base-uri Missing` (base-uri absent), and
`strict-dynamic with unsafe-inline`; the JSONP and Angular entries do not
fire. -/
theorem c6_amended_bypass_list :
    detectBypasses [("script-src", "'self' 'strict-dynamic' 'unsafe-inline'")] =
      ["object-src Missing: Missing object-src allows plugin execution via data: or other sources",
       "base-uri Missing: Missing base-uri allows attackers to change base URL, potentially hijacking relative URLs",
       "strict-dynamic with unsafe-inline: 'strict-dynamic' ignores 'unsafe-inline' in modern browsers, but fallback may allow inline scripts"] := by
  decide

/-- C7, counterexample: an `https:` URL token does trigger the
`http: (without TLS)` pattern (the `/https?:/` regex matches the substring
`https:`), falsifying "only the literal bare `http:` token triggers it". -/
theorem c7_counterexample :
    "http: (without TLS) detected: Allows unencrypted HTTP connections" ∈
      (evaluateDirective "script-src" "https://example.com").warnings := by
  decide

/-- C7, amended: the `http:` pattern is a substring test for `http:` or
`https:` — it fires on the bare `http:` token and on `https:` URLs, but not
on `*`; for the policy `script-src *` only the wildcard pattern fires, the
−25 deduction applies, and the score (0) is lower than for the equivalent
policy `script-src 'self'` (19). -/
theorem c7_amended_http_wildcard :
    "http: (without TLS) detected: Allows unencrypted HTTP connections" ∈
      (evaluateDirective "script-src" "http:").warnings ∧
    "http: (without TLS) detected: Allows unencrypted HTTP connections" ∉
      (evaluateDirective "script-src" "*").warnings ∧
    (evaluateDirective "script-src" "*").warnings =
      ["'*' (wildcard) detected: Allows any source - completely bypasses CSP"] ∧
    (evaluatePolicy "script-src *").score = 0 ∧
    (evaluatePolicy "script-src 'self'").score = 19 ∧
    (evaluatePolicy "script-src *").score < (evaluatePolicy "script-src 'self'").score := by
  refine ⟨by decide, by decide, by decide, by decide, by decide, by decide⟩

/-- C8: a header map containing only the report-only header with
`report-uri /csp-report` yields a `CSPReportOnlyEvaluation` with
`reportOnly = true`, `reportUri = "/csp-report"` (first regex match,
trimmed), no enforced policy evaluation, and the report-only
recommendation. -/
theorem c8_report_only_only :
    evaluate [("Content-Security-Policy-Report-Only",
        "default-src 'self'; report-uri /csp-report")] =
      ⟨none, some ⟨true, some "/csp-report", none⟩, 0, "none",
       ["Consider enforcing CSP in addition to report-only mode"], [], []⟩ := by
  decide

/-- C9: a directive present with an empty value is treated as absent by
every truthiness-based check: no presence points, listed in
`missingDirectives` with its warning Finding while still appearing in
`directives`, treated as missing by the bypass predicates, and a valueless
`script-src` is skipped when choosing the effective script source. -/
theorem c9_valueless_directive :
    (∀ raw k, jsGet raw k = "" → present raw k = false) ∧
    (∀ raw, jsGet raw "script-src" = "" →
      effectiveScriptSrc raw = truthyOr (jsGet raw "default-src") "") ∧
    (evaluatePolicy "object-src").directives.map (fun d => d.name) = ["object-src"] ∧
    (evaluatePolicy "object-src").missingDirectives =
      ["default-src", "script-src", "object-src", "base-uri"] ∧
    (⟨"warning", "medium", "Missing object-src directive", none,
       some "Add object-src directive to improve security"⟩ : CSPFinding) ∈
      (evaluatePolicy "object-src").findings ∧
    (evaluatePolicy "object-src").score = 10 ∧
    "object-src Missing: Missing object-src allows plugin execution via data: or other sources" ∈
      (evaluatePolicy "object-src").bypasses := by
  refine ⟨?_, ?_, by decide, by decide, by decide, by decide, by decide⟩
  · intro raw k h
    simp [present, h]
  · intro raw h
    simp [effectiveScriptSrc, h, truthyOr]

/-- C9, witness: concrete instances of the truthiness facts. -/
theorem c9_witness :
    present [("object-src", "")] "object-src" = false ∧
    effectiveScriptSrc [("script-src", ""), ("default-src", "'self'")] =
      truthyOr (jsGet [("script-src", ""), ("default-src", "'self'")] "default-src") "" :=
  ⟨c9_valueless_directive.1 [("object-src", "")] "object-src" (by decide),
   c9_valueless_directive.2.1 [("script-src", ""), ("default-src", "'self'")] (by decide)⟩

/-- C10, counterexample: a source list containing both `'none'` and a
wildcard-bearing token is still marked secure (the `'none'` disjunct wins),
falsifying "every source token containing `*` makes the directive not
secure". -/
theorem c10_counterexample :
    containsSub "https://*.example.com" "*" = true ∧
    (evaluateDirective "script-src" "'none' https://*.example.com").isSecure = true := by
  constructor
  · decide
  · decide

/-- C10, amended: the wildcard pattern matches any token containing `*`;
such a token always contributes the wildcard warning (and its label reaches
`unsafeSources`), and makes the directive not secure unless the source list
contains the literal `'none'`; any effective script source containing `*`
incurs the −25 deduction in `calculateScore`. -/
theorem c10_amended_wildcard_substring :
    (∀ name value s, s ∈ (evaluateDirective name value).sources →
      containsSub s "*" = true →
      ("'*' (wildcard) detected: Allows any source - completely bypasses CSP" ∈
          (evaluateDirective name value).warnings ∧
        ((evaluateDirective name value).sources.contains "'none'" = false →
          (evaluateDirective name value).isSecure = false))) ∧
    "'*' (wildcard)" ∈ (evaluatePolicy "script-src https://*.example.com").unsafeSources ∧
    (∀ directives raw, containsSub (effectiveScriptSrc raw) "*" = true →
      calculateScore directives raw =
        max 0 (min 100 (10 + specPresenceBonus raw + specSecurityBonus raw +
          (directives.map specDirBonus).sum -
          specInlineDeduction raw - specEvalDeduction raw - 25))) := by
  refine ⟨?_, by decide, ?_⟩
  · intro name value s hs hw
    refine ⟨warning_mem_of_match name value s hs wildcardSource wildcardSource_mem hw, ?_⟩
    intro hnone
    exact isSecure_false_of_match name value s hs wildcardSource wildcardSource_mem hw hnone
  · intro directives raw h
    rw [calculateScore_eq_specScore]
    unfold specScore specWildcardDeduction
    rw [effScript_eq] at h
    rw [if_pos h]

/-- C10, witness: the wildcard facts at a concrete URL token and the −25
deduction at a concrete raw directive map. -/
theorem c10_witness :
    "'*' (wildcard) detected: Allows any source - completely bypasses CSP" ∈
      (evaluateDirective "script-src" "https://*.example.com").warnings ∧
    (evaluateDirective "script-src" "https://*.example.com").isSecure = false ∧
    calculateScore [] [("script-src", "*")] =
      max 0 (min 100 (10 + specPresenceBonus [("script-src", "*")] +
        specSecurityBonus [("script-src", "*")] +
        (([] : List CSPDirectiveEvaluation).map specDirBonus).sum -
        specInlineDeduction [("script-src", "*")] -
        specEvalDeduction [("script-src", "*")] - 25)) := by
  obtain ⟨h1, h2⟩ := c10_amended_wildcard_substring.1 "script-src" "https://*.example.com"
    "https://*.example.com" (by decide) (by decide)
  exact ⟨h1, h2 (by decide),
    c10_amended_wildcard_substring.2.2 [] [("script-src", "*")] (by decide)⟩
